import Mathlib

/-!
Shallow embedding of the streaming chat client of the idea-engine repository.

The embedded code is:
* `web/src/stores/useAgentStore.ts` — the current store variant (the one
  holding an `AbortController`): the SSE chunk buffering and line splitting
  inside `sendMessage`, the per-event dispatch (`text`, `step-finish`,
  `tool-call`, `tool-result`), the `catch` block distinguishing
  `AbortError` from transport errors, `setCurrentThread` and `abortStream`.
* `web/src/components/ChatPanel.tsx` — the order in which an assistant
  message's content and tool calls are rendered (`Message` component).
* `src/server/index.ts` — the shape of the `tool-result` SSE frames written
  by the `/api/engineer/chat` and `/api/engineer/start` endpoints,
  including the `result.slice(0, 500)` truncation of string results.

JavaScript platform builtins that the code relies on (`JSON.parse`,
`JSON.stringify`, `String()` coercion, truthiness, `parseInt`,
`String.prototype.trim/slice/replace`, `Map.set/get`) are modelled
explicitly below; each model carries a comment naming the builtin.
Strings are modelled at the character level (the `TextDecoder` handles the
byte-to-text boundary in the source); JSON numbers are modelled as integers
(no claim depends on fractional numbers); wall-clock `timestamp` fields are
not modelled.
-/

/-- A JSON value as produced by `JSON.parse`.  Numbers are restricted to
integers in this model. -/
inductive JVal where
  | null : JVal
  | bool : Bool → JVal
  | num : Int → JVal
  | str : String → JVal
  | arr : List JVal → JVal
  | obj : List (String × JVal) → JVal

/-- Property access `o[k]` on a parsed JSON object: for duplicate keys,
`JSON.parse` keeps the last occurrence, hence the reversed search.  Access
on a non-object yields `none` (undefined). -/
def jLookup (j : JVal) (k : String) : Option JVal :=
  match j with
  | .obj kvs => (kvs.reverse.find? (fun kv => kv.1 == k)).map (fun kv => kv.2)
  | _ => none

/-- JavaScript truthiness of a JSON value: `null`, `false`, `0` and the
empty string are falsy, everything else is truthy. -/
def jsTruthy : JVal → Bool
  | .null => false
  | .bool b => b
  | .num n => !(n == 0)
  | .str s => !(s == "")
  | .arr _ => true
  | .obj _ => true

/-- Truthiness of a possibly-absent (undefined) value. -/
def jsTruthyOpt : Option JVal → Bool
  | none => false
  | some j => jsTruthy j

/-- Whether a JSON value is a string (`typeof v === 'string'`). -/
def isStrVal : JVal → Bool
  | .str _ => true
  | _ => false

/-- One hex digit, lower case, as used by `JSON.stringify` control-character
escapes. -/
def hexDigit (n : Nat) : String :=
  String.singleton (if n < 10 then Char.ofNat (48 + n) else Char.ofNat (87 + n))

/-- Escaping of one character inside a `JSON.stringify` string literal. -/
def escChar (c : Char) : String :=
  if c = '"' then "\\\""
  else if c = '\\' then "\\\\"
  else if c = '\n' then "\\n"
  else if c = '\r' then "\\r"
  else if c = '\t' then "\\t"
  else if c = Char.ofNat 8 then "\\b"
  else if c = Char.ofNat 12 then "\\f"
  else if c.toNat < 32 then "\\u00" ++ hexDigit (c.toNat / 16) ++ hexDigit (c.toNat % 16)
  else String.singleton c

/-- `JSON.stringify` of a string. -/
def stringifyStr (s : String) : String :=
  "\"" ++ String.join (s.data.map escChar) ++ "\""

mutual

/-- Model of the platform `JSON.stringify` on JSON values. -/
def stringify : JVal → String
  | .null => "null"
  | .bool true => "true"
  | .bool false => "false"
  | .num n => toString n
  | .str s => stringifyStr s
  | .arr xs => "[" ++ stringifyItems xs ++ "]"
  | .obj kvs => "\x7b" ++ stringifyMembers kvs ++ "\x7d"

/-- Comma-separated `JSON.stringify` of array elements. -/
def stringifyItems : List JVal → String
  | [] => ""
  | [x] => stringify x
  | x :: y :: xs => stringify x ++ "," ++ stringifyItems (y :: xs)

/-- Comma-separated `JSON.stringify` of object members. -/
def stringifyMembers : List (String × JVal) → String
  | [] => ""
  | [kv] => stringifyStr kv.1 ++ ":" ++ stringify kv.2
  | kv :: kv2 :: kvs => stringifyStr kv.1 ++ ":" ++ stringify kv.2 ++ "," ++ stringifyMembers (kv2 :: kvs)

end

mutual

/-- Model of the platform `String()` coercion on JSON values (used by the
`Error` constructor on its message argument). -/
def jsToString : JVal → String
  | .null => "null"
  | .bool true => "true"
  | .bool false => "false"
  | .num n => toString n
  | .str s => s
  | .arr xs => jsArrItems xs
  | .obj _ => "[object Object]"

/-- `Array.prototype.toString`: elements joined by commas, `null` elements
rendered as the empty string. -/
def jsArrItems : List JVal → String
  | [] => ""
  | [.null] => ""
  | [x] => jsToString x
  | .null :: y :: xs => "," ++ jsArrItems (y :: xs)
  | x :: y :: xs => jsToString x ++ "," ++ jsArrItems (y :: xs)

end

/-- Whitespace characters recognised by the JSON grammar and by the
whitespace trimming models below. -/
def isWsChar (c : Char) : Bool :=
  c == ' ' || c == '\n' || c == '\t' || c == '\r'

/-- Drop leading JSON whitespace. -/
def skipWs : List Char → List Char
  | [] => []
  | c :: cs => if isWsChar c then skipWs cs else c :: cs

/-- Value of a hex digit, if any. -/
def hexVal (c : Char) : Option Nat :=
  if 48 ≤ c.toNat && c.toNat ≤ 57 then some (c.toNat - 48)
  else if 97 ≤ c.toNat && c.toNat ≤ 102 then some (c.toNat - 87)
  else if 65 ≤ c.toNat && c.toNat ≤ 70 then some (c.toNat - 55)
  else none

/-- Split off the longest leading run of decimal digits. -/
def takeDigits : List Char → List Char × List Char
  | [] => ([], [])
  | c :: cs =>
    if c.isDigit then
      let p := takeDigits cs
      (c :: p.1, p.2)
    else ([], c :: cs)

/-- Numeric value of a digit run. -/
def digitsVal (ds : List Char) : Nat :=
  ds.foldl (fun a c => a * 10 + (c.toNat - 48)) 0

/-- Parse a nonempty digit run as a natural number. -/
def parseNat (cs : List Char) : Option (Nat × List Char) :=
  match takeDigits cs with
  | ([], _) => none
  | (ds, r) => some (digitsVal ds, r)

/-- Body of a JSON string literal, after the opening quote: returns the
decoded characters and the input following the closing quote.  The fuel
argument is an upper bound on the recursion depth. -/
def parseStrBody (fuel : Nat) (cs : List Char) : Option (List Char × List Char) :=
  match fuel with
  | 0 => none
  | fuel + 1 =>
    match cs with
    | [] => none
    | '"' :: rest => some ([], rest)
    | '\\' :: rest =>
      match rest with
      | [] => none
      | e :: rest2 =>
        let esc : Option (Char × List Char) :=
          if e = '"' then some ('"', rest2)
          else if e = '\\' then some ('\\', rest2)
          else if e = '/' then some ('/', rest2)
          else if e = 'n' then some ('\n', rest2)
          else if e = 't' then some ('\t', rest2)
          else if e = 'r' then some ('\r', rest2)
          else if e = 'b' then some (Char.ofNat 8, rest2)
          else if e = 'f' then some (Char.ofNat 12, rest2)
          else if e = 'u' then
            match rest2 with
            | a :: b :: c :: d :: rest3 =>
              match hexVal a, hexVal b, hexVal c, hexVal d with
              | some ha, some hb, some hc, some hd =>
                some (Char.ofNat (((ha * 16 + hb) * 16 + hc) * 16 + hd), rest3)
              | _, _, _, _ => none
            | _ => none
          else none
        match esc with
        | some p => (parseStrBody fuel p.2).map (fun q => (p.1 :: q.1, q.2))
        | none => none
    | c :: rest => (parseStrBody fuel rest).map (fun q => (c :: q.1, q.2))

mutual

/-- Recursive-descent model of `JSON.parse` for one value (fuel-indexed;
numbers restricted to integers). -/
def parseVal (fuel : Nat) (cs : List Char) : Option (JVal × List Char) :=
  match fuel with
  | 0 => none
  | fuel + 1 =>
    match skipWs cs with
    | 'n' :: 'u' :: 'l' :: 'l' :: rest => some (.null, rest)
    | 't' :: 'r' :: 'u' :: 'e' :: rest => some (.bool true, rest)
    | 'f' :: 'a' :: 'l' :: 's' :: 'e' :: rest => some (.bool false, rest)
    | '"' :: rest => (parseStrBody fuel rest).map (fun p => (.str (String.mk p.1), p.2))
    | '[' :: rest =>
      (match skipWs rest with
       | ']' :: rest2 => some (.arr [], rest2)
       | _ => (parseItems fuel rest).map (fun p => (.arr p.1, p.2)))
    | '\x7b' :: rest =>
      (match skipWs rest with
       | '\x7d' :: rest2 => some (.obj [], rest2)
       | _ => (parseMembers fuel rest).map (fun p => (.obj p.1, p.2)))
    | '-' :: rest => (parseNat rest).map (fun p => (.num (-(p.1 : Int)), p.2))
    | c :: rest =>
      if c.isDigit then (parseNat (c :: rest)).map (fun p => (.num (p.1 : Int), p.2))
      else none
    | [] => none

/-- One or more comma-separated array elements up to the closing bracket. -/
def parseItems (fuel : Nat) (cs : List Char) : Option (List JVal × List Char) :=
  match fuel with
  | 0 => none
  | fuel + 1 =>
    match parseVal fuel cs with
    | none => none
    | some (v, r) =>
      match skipWs r with
      | ',' :: r2 => (parseItems fuel r2).map (fun p => (v :: p.1, p.2))
      | ']' :: r2 => some ([v], r2)
      | _ => none

/-- One or more comma-separated object members up to the closing brace. -/
def parseMembers (fuel : Nat) (cs : List Char) : Option (List (String × JVal) × List Char) :=
  match fuel with
  | 0 => none
  | fuel + 1 =>
    match skipWs cs with
    | '"' :: rest =>
      match parseStrBody fuel rest with
      | none => none
      | some (k, r) =>
        match skipWs r with
        | ':' :: r2 =>
          match parseVal fuel r2 with
          | none => none
          | some (v, r3) =>
            match skipWs r3 with
            | ',' :: r4 => (parseMembers fuel r4).map (fun p => ((String.mk k, v) :: p.1, p.2))
            | '\x7d' :: r4 => some ([(String.mk k, v)], r4)
            | _ => none
        | _ => none
    | _ => none

end

/-- Model of `JSON.parse` applied to a whole text: the single value must
consume the input up to trailing whitespace. -/
def jsonParse (cs : List Char) : Option JVal :=
  match parseVal (cs.length + 1) cs with
  | some (j, rest) => if skipWs rest = [] then some j else none
  | none => none

/-! ## SSE frame buffering

`sendMessage` (engineer branch) accumulates decoded chunks in `buffer`,
splits on the line-feed character and keeps the trailing (possibly partial)
fragment: `buffer += chunk; const lines = buffer.split('\n');
buffer = lines.pop() || ''`. -/

/-- Prepend a character to the first segment of a split result
(`[[c]]` on the empty list). -/
def consHead (c : Char) : List (List Char) → List (List Char)
  | [] => [[c]]
  | l :: ls => (c :: l) :: ls

/-- `String.prototype.split('\n')` at character level: always returns at
least one (possibly empty) segment; does not drop empty segments. -/
def splitNl : List Char → List (List Char)
  | [] => [[]]
  | c :: cs => if c = '\n' then [] :: splitNl cs else consHead c (splitNl cs)

/-- Prepend a fragment to the first segment of a split result. -/
def glueHead (x : List Char) : List (List Char) → List (List Char)
  | [] => [x]
  | l :: ls => (x ++ l) :: ls

/-- Concatenation of two split results: the last fragment of the first
glues onto the first segment of the second. -/
def joinSplits : List (List Char) → List (List Char) → List (List Char)
  | [], ys => ys
  | [x], ys => glueHead x ys
  | x :: x2 :: xs, ys => x :: joinSplits (x2 :: xs) ys

/-- Process one decoded chunk against the current buffer: returns the
complete lines handed to the dispatcher and the new buffer (the trailing
fragment kept by `lines.pop()`). -/
def processChunk (buf chunk : List Char) : List (List Char) × List Char :=
  let parts := splitNl (buf ++ chunk)
  (parts.dropLast, parts.getLastD [])

/-- Feed a sequence of chunks through the read loop, collecting every
complete line in order together with the final buffer. -/
def feedChunks (buf : List Char) : List (List Char) → List (List Char) × List Char
  | [] => ([], buf)
  | c :: cs =>
    let p := processChunk buf c
    let q := feedChunks p.2 cs
    (p.1 ++ q.1, q.2)

/-- All complete lines produced from a chunk sequence, starting from an
empty buffer. -/
def sseLines (chunks : List (List Char)) : List (List Char) :=
  (feedChunks [] chunks).1

/-! ## Events

The dispatcher inside the read loop of `sendMessage` switches on
`data.type` after `JSON.parse(line.slice(6))` for lines starting with
`data: `. -/

/-- A typed event as dispatched by the reducer loop.  Field values of kind
"may be absent" are `Option JVal`. -/
inductive SEvent where
  | text (content : Option JVal)
  | stepFinish
  | toolCall (toolCallId toolName : String) (args : Option JVal)
  | toolResult (toolCallId : String) (result : Option JVal) (isError : Bool)
  | finish

/-- Dispatch of one parsed frame object on its `type` field, mirroring the
`if`/`else if` chain of the read loop.  Per the wire invariant (spec §3)
`toolCallId`/`toolName` are opaque strings; frames violating that are not
given an event. -/
def eventOfJson (j : JVal) : Option SEvent :=
  match jLookup j "type" with
  | some (.str t) =>
    if t = "text" then some (.text (jLookup j "content"))
    else if t = "step-finish" then some .stepFinish
    else if t = "tool-call" then
      match jLookup j "toolCallId", jLookup j "toolName" with
      | some (.str cid), some (.str nm) => some (.toolCall cid nm (jLookup j "args"))
      | _, _ => none
    else if t = "tool-result" then
      match jLookup j "toolCallId" with
      | some (.str cid) =>
        some (.toolResult cid (jLookup j "result") (jsTruthyOpt (jLookup j "isError")))
      | _ => none
    else if t = "finish" then some .finish
    else none
  | _ => none

/-- One SSE line: only `data: ` lines are considered, their payload is
parsed as JSON (a parse failure drops the line silently) and dispatched. -/
def parseLine (line : List Char) : Option SEvent :=
  if line.take 6 = "data: ".data then
    match jsonParse (line.drop 6) with
    | some j => eventOfJson j
    | none => none
  else none

/-- The full event sequence a chunked SSE stream produces. -/
def sseEvents (chunks : List (List Char)) : List SEvent :=
  (sseLines chunks).filterMap parseLine

/-! ## Turn reducer

State mutated by the `sendMessage` read loop for the one in-flight
assistant message: the `fullContent` accumulator (mirrored into the
message's `content`), the message's `toolCalls` array, and the
`toolCalls` `Map` used as the per-turn registry. -/

/-- Tool-call lifecycle status. -/
inductive CallStatus where
  | calling
  | complete
  | error
deriving DecidableEq, Repr

/-- A tool call as stored on a chat message (`web/src/types` `ToolCall`):
`{ id, name, status, input, output?, error? }`. -/
structure ToolCall where
  id : String
  name : String
  status : CallStatus
  input : Option JVal
  output : Option JVal
  error : Option String

/-- A registry entry (`ToolCallLog` in the store): `{ id, toolName, status,
args?, result?, error? }`; the wall-clock `timestamp` is not modelled. -/
structure ToolCallLog where
  id : String
  toolName : String
  status : CallStatus
  args : Option JVal
  result : Option JVal
  error : Option String

/-- `Map.prototype.set`: insert-or-update that keeps first-insertion
order. -/
def mapSet (m : List (String × ToolCallLog)) (k : String) (v : ToolCallLog) :
    List (String × ToolCallLog) :=
  match m with
  | [] => [(k, v)]
  | kv :: rest => if kv.1 = k then (k, v) :: rest else kv :: mapSet rest k v

/-- `Map.prototype.get`. -/
def mapGet (m : List (String × ToolCallLog)) (k : String) : Option ToolCallLog :=
  (m.find? (fun kv => kv.1 == k)).map (fun kv => kv.2)

/-- The per-turn mutable state of `sendMessage`'s read loop. -/
structure TurnState where
  fullContent : String
  msgToolCalls : List ToolCall
  registry : List (String × ToolCallLog)

/-- The state at the start of a turn (placeholder assistant message). -/
def initialTurn : TurnState := ⟨"", [], []⟩

/-- Coercion of a `text` event's `content` field:
`typeof data.content === 'string' ? data.content
 : (data.content ? JSON.stringify(data.content) : '')`. -/
def coerceContent : Option JVal → String
  | some (.str s) => s
  | some j => if jsTruthy j then stringify j else ""
  | none => ""

/-- One transition of the reducer, mirroring the event dispatch of
`sendMessage` (engineer branch).  `text` and `step-finish` append to the
content accumulator; `tool-call` unconditionally `Map.set`s the registry
and appends a fresh part to the message's `toolCalls`; `tool-result` is a
no-op for an unknown id and otherwise sets the registry entry and every
matching message part to `complete` with the new result — its `isError`
field is not consulted; `finish` has no case in this handler. -/
def stepEvent (st : TurnState) : SEvent → TurnState
  | .text c => { st with fullContent := st.fullContent ++ coerceContent c }
  | .stepFinish => { st with fullContent := st.fullContent ++ "\n\n" }
  | .toolCall cid nm args =>
    { st with
      registry := mapSet st.registry cid ⟨cid, nm, .calling, args, none, none⟩,
      msgToolCalls := st.msgToolCalls ++ [⟨cid, nm, .calling, args, none, none⟩] }
  | .toolResult cid result _isError =>
    match mapGet st.registry cid with
    | none => st
    | some existing =>
      { st with
        registry := mapSet st.registry cid
          { existing with status := .complete, result := result },
        msgToolCalls := st.msgToolCalls.map (fun tc =>
          if tc.id = cid then { tc with status := .complete, output := result } else tc) }
  | .finish => st

/-- Run the reducer over an event sequence. -/
def runEvents (st : TurnState) (es : List SEvent) : TurnState :=
  es.foldl stepEvent st

/-- The text contributed to `fullContent` by one event. -/
def textContrib : SEvent → String
  | .text c => coerceContent c
  | .stepFinish => "\n\n"
  | _ => ""

/-- Concatenated text contributions of an event sequence. -/
def textJoin : List SEvent → String
  | [] => ""
  | e :: es => textContrib e ++ textJoin es

/-- `(id, name)` of each `tool-call` event, in arrival order. -/
def toolCallArrivals : List SEvent → List (String × String)
  | [] => []
  | .toolCall cid nm _ :: es => (cid, nm) :: toolCallArrivals es
  | _ :: es => toolCallArrivals es

/-! ## Rendering

`ChatPanel.tsx`'s `Message` component renders the assistant message as:
one markdown block holding `message.content` (shown when
`message.content.trim() !== ''`), followed by `message.toolCalls`
mapped in array order. -/

/-- `String.prototype.trim` (over the common whitespace characters). -/
def jsTrim (s : String) : String :=
  String.mk (((s.data.dropWhile isWsChar).reverse.dropWhile isWsChar).reverse)

/-- One ordered element of the rendered assistant message. -/
inductive MsgPart where
  | text (s : String)
  | tool (tc : ToolCall)

/-- The ordered content parts the `Message` component produces for an
assistant message. -/
def renderedParts (st : TurnState) : List MsgPart :=
  (if jsTrim st.fullContent ≠ "" then [MsgPart.text st.fullContent] else [])
    ++ st.msgToolCalls.map MsgPart.tool

/-- Whether a part is a text part. -/
def isTextPart : MsgPart → Bool
  | .text _ => true
  | .tool _ => false

/-- Whether a part is the tool-call part for a given id. -/
def isToolPartFor (cid : String) : MsgPart → Bool
  | .tool tc => tc.id == cid
  | .text _ => false

/-- The ordering property claimed of the parts sequence: some tool-call
part for `cid` lies strictly between two text parts. -/
def toolStrictlyBetweenTexts (parts : List MsgPart) (cid : String) : Prop :=
  ∃ i j k : Fin parts.length, i < j ∧ j < k ∧
    isTextPart (parts.get i) = true ∧
    isToolPartFor cid (parts.get j) = true ∧
    isTextPart (parts.get k) = true

instance (parts : List MsgPart) (cid : String) :
    Decidable (toolStrictlyBetweenTexts parts cid) := by
  unfold toolStrictlyBetweenTexts
  infer_instance

/-! ## Session controller

`sendMessage`'s surrounding `try`/`catch`/`finally`: a non-2xx response
throws `new Error(errorData.error || 'Failed to send message')`; the
`catch` returns silently when `error.name === 'AbortError'` and otherwise
replaces the assistant message's content with
`Error: ${error.message || 'Failed to get response'}`. -/

/-- The assistant message as observed after the turn: its `content` string
and `toolCalls` array. -/
structure MsgView where
  content : String
  toolCalls : List ToolCall

/-- Project the turn state onto the assistant message. -/
def msgOf (st : TurnState) : MsgView :=
  ⟨st.fullContent, st.msgToolCalls⟩

/-- Fallback used when the non-2xx body has no usable `error` field. -/
def fallbackSendError : String := "Failed to send message"

/-- Fallback used when the caught error has an empty message. -/
def fallbackNetError : String := "Failed to get response"

/-- The message of the `Error` thrown on a non-2xx response:
`errorData.error || 'Failed to send message'`, where `errorData` is the
response body parsed as JSON (`{}` when parsing fails, modelled as
`none`).  A non-string truthy field goes through the platform `String()`
coercion applied by the `Error` constructor. -/
def httpErrorReason (body : Option JVal) : String :=
  match body with
  | none => fallbackSendError
  | some b =>
    match jLookup b "error" with
    | some v => if jsTruthy v then jsToString v else fallbackSendError
    | none => fallbackSendError

/-- `error.message || 'Failed to get response'`. -/
def catchErrorText (errMessage : String) : String :=
  if errMessage = "" then fallbackNetError else errMessage

/-- The `catch` block of `sendMessage`, applied to the message state the
read loop had built: an `AbortError` returns without touching the message;
any other error replaces its content with the `Error:` marker. -/
def handleCatch (errName errMessage : String) (st : TurnState) : MsgView :=
  if errName = "AbortError" then msgOf st
  else ⟨"Error: " ++ catchErrorText errMessage, st.msgToolCalls⟩

/-- How one `sendMessage` turn ends: the stream completed after `es`, or
an error named `errName` with message `errMessage` was caught after the
loop had processed `es` (a non-2xx response throws a plain `Error` with
`es = []`; a network failure throws a `TypeError`; a user abort throws an
`AbortError`). -/
inductive TurnOutcome where
  | completed (es : List SEvent)
  | failed (errName errMessage : String) (es : List SEvent)

/-- The assistant message at the end of the turn. -/
def sendMessageFinal : TurnOutcome → MsgView
  | .completed es => msgOf (runEvents initialTurn es)
  | .failed errName errMessage es => handleCatch errName errMessage (runEvents initialTurn es)

/-! ## Server-side tool-result frames

Both `/api/engineer/chat` and `/api/engineer/start` write tool results as
`data: ${JSON.stringify({ type: 'tool-result', toolCallId, toolName,
result: typeof result === 'string' ? result.slice(0, 500) : result })}`. -/

/-- `String.prototype.slice(0, n)` (character-level model). -/
def jsSliceStr (s : String) (n : Nat) : String :=
  String.mk (s.data.take n)

/-- The `result` value placed in a tool-result frame. -/
def truncatedResult (result : JVal) : JVal :=
  match result with
  | .str s => .str (jsSliceStr s 500)
  | j => j

/-- The JSON object of one tool-result SSE frame. -/
def toolResultFrame (toolCallId toolName : String) (result : JVal) : JVal :=
  .obj [("type", .str "tool-result"), ("toolCallId", .str toolCallId),
        ("toolName", .str toolName), ("result", truncatedResult result)]

/-- The bytes written to the stream for one tool-result frame. -/
def toolResultWire (toolCallId toolName : String) (result : JVal) : List Char :=
  ("data: " ++ stringify (toolResultFrame toolCallId toolName result) ++ "\n\n").data

/-! ## Store-level actions

`setCurrentThread` and `abortStream` of the current store variant. -/

/-- The slice of the zustand store these actions read and write. -/
structure AgentInfo where
  id : String
  status : String

/-- Store state: thread selection, agent selection, in-memory messages,
streaming flag, agents and the log panel entries (messages only). -/
structure AppState where
  currentThreadId : Option String
  currentAgentId : String
  messages : List MsgView
  isStreaming : Bool
  agents : List AgentInfo
  logs : List String

/-- `String.prototype.replace(pat, '')` for the first occurrence. -/
def replaceFirstAux (pat : List Char) : List Char → List Char
  | [] => []
  | c :: cs =>
    if pat.isPrefixOf (c :: cs) then (c :: cs).drop pat.length
    else c :: replaceFirstAux pat cs

/-- `s.replace(pat, '')`. -/
def jsReplaceFirst (s pat : String) : String :=
  String.mk (replaceFirstAux pat.data s.data)

/-- Model of `parseInt(s, 10)`: optional sign, leading decimal digits,
`none` for `NaN`. -/
def jsParseIntDec (s : String) : Option Int :=
  let t := s.data.dropWhile isWsChar
  let signed : Bool × List Char :=
    match t with
    | '-' :: r => (true, r)
    | '+' :: r => (false, r)
    | r => (false, r)
  match takeDigits signed.2 with
  | ([], _) => none
  | (ds, _) =>
    let n : Int := (digitsVal ds : Nat)
    some (if signed.1 then -n else n)

/-- Template-literal rendering of a `parseInt` result (`NaN` included). -/
def intOptToJsString : Option Int → String
  | none => "NaN"
  | some n => toString n

/-- Result of a `setCurrentThread` call: the new store state, plus whether
`loadMessages` (the reload from the external store) was invoked. -/
structure SwitchOutcome where
  state : AppState
  loadInvoked : Bool

/-- `setCurrentThread`: records the thread id, derives the agent id from
the `engineer-` prefix, and calls `loadMessages` only when not streaming
(`if (!isStreaming) get().loadMessages(threadId)`); a `null` thread id
clears the in-memory messages instead. -/
def setCurrentThread (st : AppState) (threadId : Option String) : SwitchOutcome :=
  let st1 := { st with currentThreadId := threadId }
  match threadId with
  | some tid =>
    let st2 :=
      if tid.startsWith "engineer-" then
        { st1 with currentAgentId :=
            "eng-" ++ intOptToJsString (jsParseIntDec (jsReplaceFirst tid "engineer-")) }
      else { st1 with currentAgentId := "pv-1" }
    if st.isStreaming then ⟨st2, false⟩ else ⟨st2, true⟩
  | none => ⟨{ st1 with messages := [] }, false⟩

/-- `abortStream`: aborts the transport (not part of the store state),
clears `isStreaming`, marks the running engineer agent idle (guarded by
the truthiness of the parsed issue number) and appends a log entry; the
`messages` field is not touched. -/
def abortStream (st : AppState) : AppState :=
  let issueNumber : Option Int :=
    if st.currentAgentId.startsWith "eng-" then
      jsParseIntDec (jsReplaceFirst st.currentAgentId "eng-")
    else none
  let agents :=
    match issueNumber with
    | some n =>
      if n = 0 then st.agents
      else st.agents.map (fun a =>
        if a.id = "eng-" ++ toString n then { a with status := "idle" } else a)
    | none => st.agents
  { st with isStreaming := false, agents := agents,
            logs := st.logs ++ ["Aborted by user"] }

/-! ## Lemmas: SSE chunk buffering -/

theorem splitNl_ne_nil (s : List Char) : splitNl s ≠ [] := by
  induction s with
  | nil => simp [splitNl]
  | cons c cs ih =>
    simp only [splitNl]
    split
    · simp
    · cases h : splitNl cs with
      | nil => simp [consHead]
      | cons l ls => simp [consHead]

theorem consHead_joinSplits (c : Char) (xs ys : List (List Char)) :
    consHead c (joinSplits xs ys) = joinSplits (consHead c xs) ys := by
  match xs with
  | [] =>
    cases ys with
    | nil => simp [joinSplits, consHead, glueHead]
    | cons l ls => simp [joinSplits, consHead, glueHead]
  | [x] =>
    cases ys with
    | nil => simp [joinSplits, consHead, glueHead]
    | cons l ls => simp [joinSplits, consHead, glueHead]
  | x :: x2 :: xs => simp [joinSplits, consHead]

theorem splitNl_append (a b : List Char) :
    splitNl (a ++ b) = joinSplits (splitNl a) (splitNl b) := by
  induction a with
  | nil =>
    cases h : splitNl b with
    | nil => exact absurd h (splitNl_ne_nil b)
    | cons l ls => simp [splitNl, joinSplits, glueHead, h]
  | cons c cs ih =>
    simp only [List.cons_append, splitNl, List.append_eq]
    split
    · rw [ih]
      cases h : splitNl cs with
      | nil => exact absurd h (splitNl_ne_nil cs)
      | cons l ls => simp [joinSplits, h]
    · rw [ih, consHead_joinSplits]

theorem splitNl_getLastD_no_nl (s : List Char) : '\n' ∉ (splitNl s).getLastD [] := by
  induction s with
  | nil => simp [splitNl]
  | cons c cs ih =>
    simp only [splitNl]
    split
    · cases h : splitNl cs with
      | nil => exact absurd h (splitNl_ne_nil cs)
      | cons l ls =>
        rw [h] at ih
        simpa using ih
    · cases h : splitNl cs with
      | nil => exact absurd h (splitNl_ne_nil cs)
      | cons l ls =>
        rw [h] at ih
        cases ls with
        | nil =>
          rename_i hc
          simp only [consHead, List.getLastD_cons, List.getLastD_nil] at ih ⊢
          intro hmem
          rcases List.mem_cons.mp hmem with h1 | h2
          · exact hc h1.symm
          · exact ih h2
        | cons l2 ls2 => simpa [consHead] using ih

theorem splitNl_no_nl (l : List Char) (h : ∀ c ∈ l, c ≠ '\n') : splitNl l = [l] := by
  induction l with
  | nil => rfl
  | cons c cs ih =>
    have hc : c ≠ '\n' := h c (by simp)
    have ihh := ih (fun x hx => h x (by simp [hx]))
    simp [splitNl, hc, ihh, consHead]

theorem joinSplits_eq (xs ys : List (List Char)) (h : xs ≠ []) :
    joinSplits xs ys = xs.dropLast ++ glueHead (xs.getLastD []) ys := by
  induction xs with
  | nil => exact absurd rfl h
  | cons x xs ih =>
    cases xs with
    | nil => simp [joinSplits]
    | cons x2 xs2 => simpa [joinSplits] using ih (by simp)

theorem dropLast_append_ne {α : Type} (A B : List α) (h : B ≠ []) :
    (A ++ B).dropLast = A ++ B.dropLast := by
  induction A with
  | nil => rfl
  | cons a as ih =>
    have hne : as ++ B ≠ [] := by
      cases B with
      | nil => exact absurd rfl h
      | cons b bs => simp
    cases hx : as ++ B with
    | nil => exact absurd hx hne
    | cons y ys =>
      simp only [List.cons_append, hx, List.dropLast]
      rw [← hx, ih]

theorem getLastD_ignore {α : Type} (L : List α) (d d2 : α) (h : L ≠ []) :
    L.getLastD d = L.getLastD d2 := by
  cases L with
  | nil => exact absurd rfl h
  | cons x xs =>
    cases xs with
    | nil => rfl
    | cons y ys => rfl

theorem getLastD_append_ne {α : Type} (A B : List α) (d : α) (h : B ≠ []) :
    (A ++ B).getLastD d = B.getLastD d := by
  induction A with
  | nil => rfl
  | cons a as ih =>
    have hne : as ++ B ≠ [] := by
      cases B with
      | nil => exact absurd rfl h
      | cons b bs => simp
    have step : ((a :: as) ++ B).getLastD d = (as ++ B).getLastD a := by
      rw [List.cons_append, List.getLastD_cons]
    rw [step, getLastD_ignore _ a d hne, ih]

theorem processChunk_buf_no_nl (buf chunk : List Char) :
    '\n' ∉ (processChunk buf chunk).2 := by
  unfold processChunk
  exact splitNl_getLastD_no_nl (buf ++ chunk)

theorem processChunk_append (buf c1 c2 : List Char) :
    processChunk buf (c1 ++ c2)
      = ((processChunk buf c1).1 ++ (processChunk (processChunk buf c1).2 c2).1,
         (processChunk (processChunk buf c1).2 c2).2) := by
  have hb1 : ∀ c ∈ (splitNl (buf ++ c1)).getLastD [], c ≠ '\n' := by
    intro c hc he
    subst he
    exact splitNl_getLastD_no_nl (buf ++ c1) hc
  have hsingle : splitNl ((splitNl (buf ++ c1)).getLastD []) = [(splitNl (buf ++ c1)).getLastD []] :=
    splitNl_no_nl _ hb1
  have h1 : splitNl (buf ++ (c1 ++ c2))
      = (splitNl (buf ++ c1)).dropLast
        ++ splitNl ((splitNl (buf ++ c1)).getLastD [] ++ c2) := by
    rw [← List.append_assoc, splitNl_append (buf ++ c1) c2,
        joinSplits_eq _ _ (splitNl_ne_nil _)]
    congr 1
    rw [splitNl_append ((splitNl (buf ++ c1)).getLastD []) c2, hsingle]
    rfl
  unfold processChunk
  simp only []
  rw [h1, dropLast_append_ne _ _ (splitNl_ne_nil _),
      getLastD_append_ne _ _ _ (splitNl_ne_nil _)]

theorem feedChunks_eq (chunks : List (List Char)) (buf : List Char)
    (hb : ∀ c ∈ buf, c ≠ '\n') :
    feedChunks buf chunks = processChunk buf chunks.flatten := by
  induction chunks generalizing buf with
  | nil =>
    unfold feedChunks processChunk
    rw [List.flatten_nil, List.append_nil, splitNl_no_nl buf hb]
    rfl
  | cons c cs ih =>
    have hb2 : ∀ x ∈ (processChunk buf c).2, x ≠ '\n' := by
      intro x hx he
      subst he
      exact processChunk_buf_no_nl buf c hx
    show ((processChunk buf c).1 ++ (feedChunks (processChunk buf c).2 cs).1,
          (feedChunks (processChunk buf c).2 cs).2)
        = processChunk buf (c :: cs).flatten
    rw [ih _ hb2, List.flatten_cons, processChunk_append buf c cs.flatten]

theorem sseLines_chunking (chunks : List (List Char)) :
    sseLines chunks = sseLines [chunks.flatten] := by
  unfold sseLines
  rw [feedChunks_eq chunks [] (by simp), feedChunks_eq [chunks.flatten] [] (by simp)]
  simp

/-! ## Lemmas: the turn reducer -/

theorem runEvents_cons (st : TurnState) (e : SEvent) (es : List SEvent) :
    runEvents st (e :: es) = runEvents (stepEvent st e) es := rfl

theorem stepEvent_fullContent (st : TurnState) (e : SEvent) :
    (stepEvent st e).fullContent = st.fullContent ++ textContrib e := by
  cases e with
  | text c => rfl
  | stepFinish => rfl
  | toolCall cid nm args => simp [stepEvent, textContrib]
  | toolResult cid r b =>
    cases h : mapGet st.registry cid with
    | none => simp [stepEvent, h, textContrib]
    | some ex => simp [stepEvent, h, textContrib]
  | finish => simp [stepEvent, textContrib]

theorem runEvents_fullContent (es : List SEvent) (st : TurnState) :
    (runEvents st es).fullContent = st.fullContent ++ textJoin es := by
  induction es generalizing st with
  | nil => simp [runEvents, textJoin]
  | cons e es ih =>
    rw [runEvents_cons, ih, stepEvent_fullContent]
    simp [textJoin, String.append_assoc]

theorem stepEvent_idName (st : TurnState) (e : SEvent) :
    (stepEvent st e).msgToolCalls.map (fun tc => (tc.id, tc.name))
      = st.msgToolCalls.map (fun tc => (tc.id, tc.name)) ++ toolCallArrivals [e] := by
  cases e with
  | text c => simp [stepEvent, toolCallArrivals]
  | stepFinish => simp [stepEvent, toolCallArrivals]
  | toolCall cid nm args => simp [stepEvent, toolCallArrivals]
  | toolResult cid r b =>
    cases h : mapGet st.registry cid with
    | none => simp [stepEvent, h, toolCallArrivals]
    | some ex =>
      simp only [stepEvent, h, toolCallArrivals, List.map_map, List.append_nil]
      apply List.map_congr_left
      intro tc _
      by_cases hid : tc.id = cid <;> simp [hid]
  | finish => simp [stepEvent, toolCallArrivals]

theorem runEvents_arrivals (es : List SEvent) (st : TurnState) :
    (runEvents st es).msgToolCalls.map (fun tc => (tc.id, tc.name))
      = st.msgToolCalls.map (fun tc => (tc.id, tc.name)) ++ toolCallArrivals es := by
  induction es generalizing st with
  | nil => simp [runEvents, toolCallArrivals]
  | cons e es ih =>
    rw [runEvents_cons, ih, stepEvent_idName]
    cases e <;> simp [toolCallArrivals]

theorem runEvents_toolCalls_length (es : List SEvent) (st : TurnState) :
    (runEvents st es).msgToolCalls.length
      = st.msgToolCalls.length + (toolCallArrivals es).length := by
  have h1 : ((runEvents st es).msgToolCalls.map (fun tc => (tc.id, tc.name))).length
      = (st.msgToolCalls.map (fun tc => (tc.id, tc.name)) ++ toolCallArrivals es).length := by
    rw [runEvents_arrivals]
  simpa using h1

/-- The registry's key column. -/
def regKeys (m : List (String × ToolCallLog)) : List String :=
  m.map (fun kv => kv.1)

theorem mapSet_regKeys (m : List (String × ToolCallLog)) (k : String) (v : ToolCallLog) :
    regKeys (mapSet m k v) = if k ∈ regKeys m then regKeys m else regKeys m ++ [k] := by
  induction m with
  | nil => simp [mapSet, regKeys]
  | cons kv rest ih =>
    by_cases hk : kv.1 = k
    · subst hk
      simp [mapSet, regKeys]
    · have hk2 : ¬ k = kv.1 := fun h => hk h.symm
      simp only [mapSet, if_neg hk, regKeys, List.map_cons]
      rw [show (mapSet rest k v).map (fun kv => kv.1) = regKeys (mapSet rest k v) from rfl, ih]
      simp only [regKeys, List.mem_cons, hk2, false_or]
      by_cases hmem : k ∈ rest.map (fun kv => kv.1) <;> simp [hmem, regKeys]

theorem mapSet_regKeys_nodup (m : List (String × ToolCallLog)) (k : String) (v : ToolCallLog)
    (h : (regKeys m).Nodup) : (regKeys (mapSet m k v)).Nodup := by
  rw [mapSet_regKeys]
  split
  · exact h
  · rename_i hk
    simp [List.nodup_append, h, hk]

theorem runEvents_registry_nodup (es : List SEvent) (st : TurnState)
    (h : (regKeys st.registry).Nodup) :
    (regKeys (runEvents st es).registry).Nodup := by
  induction es generalizing st with
  | nil => exact h
  | cons e es ih =>
    rw [runEvents_cons]
    apply ih
    cases e with
    | text c => exact h
    | stepFinish => exact h
    | finish => exact h
    | toolCall cid nm args => exact mapSet_regKeys_nodup _ _ _ h
    | toolResult cid r b =>
      cases hm : mapGet st.registry cid with
      | none => simpa [stepEvent, hm] using h
      | some ex =>
        simp only [stepEvent, hm]
        exact mapSet_regKeys_nodup _ _ _ h

theorem mapGet_mapSet_self (m : List (String × ToolCallLog)) (k : String) (v : ToolCallLog) :
    mapGet (mapSet m k v) k = some v := by
  induction m with
  | nil => simp [mapSet, mapGet]
  | cons kv rest ih =>
    by_cases hk : kv.1 = k
    · simp [mapSet, hk, mapGet]
    · simp only [mapSet, if_neg hk, mapGet, List.find?]
      have : (kv.1 == k) = false := by simp [hk]
      rw [this]
      exact ih

/-! ## Claims -/

/-- C1 (counterexample): for the event sequence
`[Text "a", ToolCall t1 read-file, Text "b"]` the rendered assistant
message is one text part `"ab"` followed by the tool-call part; the tool
call emitted between the two text events does not appear strictly between
two text parts, refuting the claimed ordering invariant. -/
theorem c1_counterexample_interleaving_destroyed :
    renderedParts (runEvents initialTurn
        [.text (some (.str "a")), .toolCall "t1" "read-file" (some (.obj [])),
         .text (some (.str "b"))])
      = [MsgPart.text "ab",
         MsgPart.tool ⟨"t1", "read-file", .calling, some (.obj []), none, none⟩]
    ∧ ¬ toolStrictlyBetweenTexts
        (renderedParts (runEvents initialTurn
          [.text (some (.str "a")), .toolCall "t1" "read-file" (some (.obj [])),
           .text (some (.str "b"))]))
        "t1" := by
  constructor
  · rfl
  · decide

/-- C1 (amended): the store accumulates all text of the turn into the
message's single `content` string and the `Message` component renders all
tool-call parts after that one text block; within the tool-call list,
order reflects the arrival order of the `tool-call` events.  The claimed
text/tool interleaving is not preserved. -/
theorem c1_text_blob_then_tools (es : List SEvent) :
    renderedParts (runEvents initialTurn es)
      = (if jsTrim (textJoin es) ≠ "" then [MsgPart.text (textJoin es)] else [])
        ++ (runEvents initialTurn es).msgToolCalls.map MsgPart.tool
    ∧ (runEvents initialTurn es).msgToolCalls.map (fun tc => (tc.id, tc.name))
      = toolCallArrivals es := by
  have hc : (runEvents initialTurn es).fullContent = textJoin es := by
    simpa [initialTurn] using runEvents_fullContent es initialTurn
  constructor
  · rw [renderedParts, hc]
  · simpa [initialTurn] using runEvents_arrivals es initialTurn

/-- C2: feeding the SSE frame parser a stream split into arbitrarily many
chunks (including splits in the middle of a `data:` line) yields exactly
the same event sequence as feeding the concatenated stream as one chunk:
the trailing partial line is kept in the buffer and complete lines are
split on the line-feed character. -/
theorem c2_chunked_sse_same_events (chunks : List (List Char)) :
    sseEvents chunks = sseEvents [chunks.flatten] := by
  unfold sseEvents
  rw [sseLines_chunking]

/-- C3 (counterexample): after `ToolCall t1` and a first `ToolResult t1`
with result `"contents"` the call is terminal (`complete`), yet a second
`ToolResult t1` with result `"second"` overwrites the stored output: the
stored tool-call state is changed, not left unchanged. -/
theorem c3_counterexample_duplicate_result_overwrites :
    (mapGet (runEvents initialTurn
        [.toolCall "t1" "read-file" none,
         .toolResult "t1" (some (.str "contents")) false]).registry "t1").map
      (fun e => (e.status, e.result))
      = some (.complete, some (.str "contents"))
    ∧ (mapGet (stepEvent (runEvents initialTurn
          [.toolCall "t1" "read-file" none,
           .toolResult "t1" (some (.str "contents")) false])
          (.toolResult "t1" (some (.str "second")) false)).registry "t1").map
        (fun e => (e.status, e.result))
      = some (.complete, some (.str "second"))
    ∧ (stepEvent (runEvents initialTurn
          [.toolCall "t1" "read-file" none,
           .toolResult "t1" (some (.str "contents")) false])
          (.toolResult "t1" (some (.str "second")) false)).registry
        ≠ (runEvents initialTurn
          [.toolCall "t1" "read-file" none,
           .toolResult "t1" (some (.str "contents")) false]).registry := by
  refine ⟨rfl, rfl, ?_⟩
  intro h
  have hx : (some ((CallStatus.complete, some (JVal.str "second"))) :
      Option (CallStatus × Option JVal)) = some (.complete, some (.str "contents")) := by
    calc (some ((CallStatus.complete, some (JVal.str "second"))) :
            Option (CallStatus × Option JVal))
        = (mapGet (stepEvent (runEvents initialTurn
            [.toolCall "t1" "read-file" none,
             .toolResult "t1" (some (.str "contents")) false])
            (.toolResult "t1" (some (.str "second")) false)).registry "t1").map
            (fun e => (e.status, e.result)) := rfl
      _ = (mapGet (runEvents initialTurn
            [.toolCall "t1" "read-file" none,
             .toolResult "t1" (some (.str "contents")) false]).registry "t1").map
            (fun e => (e.status, e.result)) := by rw [h]
      _ = some (.complete, some (.str "contents")) := rfl
  injection hx with h1
  injection h1 with h2 h3
  injection h3 with h4
  injection h4 with h5
  exact absurd h5 (by decide)

/-- C3 (amended): once a registry entry is `complete`, `text`,
`step-finish` and `finish` events leave the registry untouched, but a
duplicate `ToolResult` for the same id keeps status `complete` while
overwriting the stored result with the new one (it is not ignored), and a
duplicate `ToolCall` event resets the entry to a fresh `calling` state. -/
theorem c3_terminal_behavior (st : TurnState) (cid : String) (ex : ToolCallLog)
    (hget : mapGet st.registry cid = some ex) (_hterm : ex.status = .complete) :
    (∀ c, (stepEvent st (.text c)).registry = st.registry)
    ∧ (stepEvent st .stepFinish).registry = st.registry
    ∧ (stepEvent st .finish).registry = st.registry
    ∧ (∀ r b, mapGet (stepEvent st (.toolResult cid r b)).registry cid
        = some { ex with status := .complete, result := r })
    ∧ (∀ nm a, mapGet (stepEvent st (.toolCall cid nm a)).registry cid
        = some ⟨cid, nm, .calling, a, none, none⟩) := by
  refine ⟨fun c => rfl, rfl, rfl, fun r b => ?_, fun nm a => ?_⟩
  · simp only [stepEvent, hget]
    exact mapGet_mapSet_self _ _ _
  · simp only [stepEvent]
    exact mapGet_mapSet_self _ _ _

/-- Witness for C3 (amended) at a concrete terminal state. -/
theorem c3_terminal_behavior_witness :
    mapGet (runEvents initialTurn
        [.toolCall "t1" "read-file" none,
         .toolResult "t1" (some (.str "a")) false]).registry "t1"
      = some ⟨"t1", "read-file", .complete, none, some (.str "a"), none⟩
    ∧ mapGet (stepEvent (runEvents initialTurn
          [.toolCall "t1" "read-file" none,
           .toolResult "t1" (some (.str "a")) false])
          (.toolResult "t1" (some (.str "b")) false)).registry "t1"
      = some ⟨"t1", "read-file", .complete, none, some (.str "b"), none⟩ :=
  ⟨rfl,
   (c3_terminal_behavior (runEvents initialTurn
        [.toolCall "t1" "read-file" none,
         .toolResult "t1" (some (.str "a")) false]) "t1"
        ⟨"t1", "read-file", .complete, none, some (.str "a"), none⟩
        rfl rfl).2.2.2.1 (some (.str "b")) false⟩

/-- C4 (counterexample): two `ToolCall` events with the same id yield one
registry entry but two tool-call parts in the message's tool-call list,
refuting "exactly one tool-call part". -/
theorem c4_counterexample_duplicate_parts :
    ((runEvents initialTurn
        [.toolCall "t1" "read-file" none, .toolCall "t1" "read-file" none]).msgToolCalls.map
      (fun tc => tc.id)) = ["t1", "t1"]
    ∧ (runEvents initialTurn
        [.toolCall "t1" "read-file" none, .toolCall "t1" "read-file" none]).registry.length = 1
    ∧ ¬ ((runEvents initialTurn
        [.toolCall "t1" "read-file" none, .toolCall "t1" "read-file" none]).msgToolCalls.filter
          (fun tc => tc.id == "t1")).length = 1 := by
  refine ⟨rfl, rfl, ?_⟩
  intro h
  have h2 : (2 : Nat) = 1 := by
    calc (2 : Nat) = ((runEvents initialTurn
        [.toolCall "t1" "read-file" none, .toolCall "t1" "read-file" none]).msgToolCalls.filter
          (fun tc => tc.id == "t1")).length := rfl
      _ = 1 := h
  exact absurd h2 (by decide)

/-- C4 (amended): the registry (a `Map` keyed by id) keeps exactly one
entry per id — its key column stays duplicate-free — but the message's
tool-call list gains one part per `tool-call` event, so registering the
same id twice produces two parts. -/
theorem c4_registry_unique_parts_per_event (es : List SEvent) :
    (regKeys (runEvents initialTurn es).registry).Nodup
    ∧ (runEvents initialTurn es).msgToolCalls.length = (toolCallArrivals es).length := by
  constructor
  · exact runEvents_registry_nodup es initialTurn (by simp [initialTurn, regKeys])
  · simpa [initialTurn] using runEvents_toolCalls_length es initialTurn

/-- C5 (counterexample): a `ToolResult` with `isError = true` for the
known call `t1` sets its status to `complete`, not `error`: the fail path
claimed by the spec is not taken. -/
theorem c5_counterexample_isError_ignored :
    ((stepEvent (runEvents initialTurn [.toolCall "t1" "read-file" none])
        (.toolResult "t1" (some (.str "boom")) true)).msgToolCalls.map
      (fun tc => tc.status)) = [CallStatus.complete]
    ∧ (mapGet (stepEvent (runEvents initialTurn [.toolCall "t1" "read-file" none])
        (.toolResult "t1" (some (.str "boom")) true)).registry "t1").map
      (fun e => e.status) = some CallStatus.complete
    ∧ some CallStatus.complete ≠ some CallStatus.error :=
  ⟨rfl, rfl, by decide⟩

/-- C5 (amended): the streaming reducer never consults `isError`: the
transition for a `ToolResult` is identical for `isError = true` and
`false`, and for a known call it always sets status `complete` with the
result stored as output; no `error` status is ever produced on this
path. -/
theorem c5_toolresult_ignores_isError (st : TurnState) (cid : String) (r : Option JVal) :
    stepEvent st (.toolResult cid r true) = stepEvent st (.toolResult cid r false)
    ∧ (∀ ex, mapGet st.registry cid = some ex →
        mapGet (stepEvent st (.toolResult cid r true)).registry cid
          = some { ex with status := .complete, result := r }
        ∧ (stepEvent st (.toolResult cid r true)).msgToolCalls
          = st.msgToolCalls.map (fun tc =>
              if tc.id = cid then { tc with status := .complete, output := r } else tc)) := by
  constructor
  · rfl
  · intro ex hex
    refine ⟨?_, ?_⟩
    · simp only [stepEvent, hex]
      exact mapGet_mapSet_self _ _ _
    · simp only [stepEvent, hex]

/-- Witness for C5 (amended) at a concrete known call. -/
theorem c5_toolresult_ignores_isError_witness :
    mapGet (runEvents initialTurn [.toolCall "t1" "read-file" none]).registry "t1"
      = some ⟨"t1", "read-file", .calling, none, none, none⟩
    ∧ mapGet (stepEvent (runEvents initialTurn [.toolCall "t1" "read-file" none])
        (.toolResult "t1" (some (.str "boom")) true)).registry "t1"
      = some ⟨"t1", "read-file", .complete, none, some (.str "boom"), none⟩ :=
  ⟨rfl,
   ((c5_toolresult_ignores_isError (runEvents initialTurn
        [.toolCall "t1" "read-file" none]) "t1" (some (.str "boom"))).2
      ⟨"t1", "read-file", .calling, none, none, none⟩ rfl).1⟩

/-- C6: any caught failure other than a user abort terminates the turn
with the assistant message's content replaced by a visible
`Error: <reason>` string; for a non-2xx response the thrown reason is
computed by `httpErrorReason` from the `error` field of the response's
JSON body (with the documented fallback when the field is unusable). -/
theorem c6_transport_error_surfaced (body : Option JVal) (errName errMessage : String)
    (es : List SEvent) (hname : errName ≠ "AbortError") :
    (sendMessageFinal (.failed errName errMessage es)).content
      = "Error: " ++ catchErrorText errMessage
    ∧ (∀ b s, body = some b → jLookup b "error" = some (.str s) → s ≠ "" →
        catchErrorText (httpErrorReason body) = s) := by
  constructor
  · simp [sendMessageFinal, handleCatch, hname]
  · intro b s hb hl hs
    subst hb
    simp [httpErrorReason, hl, jsTruthy, jsToString, hs, catchErrorText]

/-- Witness for C6 at a concrete non-2xx failure whose body carries an
`error` string. -/
theorem c6_transport_error_surfaced_witness :
    (sendMessageFinal (.failed "Error" "boom" [])).content = "Error: " ++ catchErrorText "boom"
    ∧ catchErrorText (httpErrorReason (some (.obj [("error", JVal.str "boom")]))) = "boom" :=
  ⟨(c6_transport_error_surfaced (some (.obj [("error", JVal.str "boom")]))
      "Error" "boom" [] (by decide)).1,
   (c6_transport_error_surfaced (some (.obj [("error", JVal.str "boom")]))
      "Error" "boom" [] (by decide)).2 (.obj [("error", JVal.str "boom")]) "boom" rfl rfl
      (by decide)⟩

/-- C7: a user abort (`AbortError`) finalizes the turn with exactly the
state the read loop had built — every event processed before cancellation
is kept, the content is precisely the accumulated text (no error marker is
inserted) — and the `abortStream` action leaves the in-memory messages
untouched. -/
theorem c7_cancellation_keeps_partial (es : List SEvent) (errMessage : String) (st : AppState) :
    sendMessageFinal (.failed "AbortError" errMessage es) = msgOf (runEvents initialTurn es)
    ∧ (sendMessageFinal (.failed "AbortError" errMessage es)).content = textJoin es
    ∧ (abortStream st).messages = st.messages := by
  refine ⟨rfl, ?_, rfl⟩
  show (msgOf (runEvents initialTurn es)).content = textJoin es
  simpa [msgOf, initialTurn] using runEvents_fullContent es initialTurn

/-- C8 (counterexample): a `text` event whose `content` is the JSON value
`null` appends the empty string, not the JSON-stringification `"null"`,
refuting "every non-string JSON value is coerced by
JSON-stringification". -/
theorem c8_counterexample_null_content :
    (stepEvent initialTurn (.text (some .null))).fullContent = ""
    ∧ stringify .null = "null"
    ∧ coerceContent (some .null) ≠ stringify .null :=
  ⟨rfl, rfl, by decide⟩

/-- C8 (amended): a `text` event appends `coerceContent` of its content:
strings verbatim, truthy non-string JSON values via `JSON.stringify`, and
falsy non-string values (`null`, `false`, `0`) as the empty string. -/
theorem c8_content_coercion (st : TurnState) (j : JVal) :
    (stepEvent st (.text (some j))).fullContent = st.fullContent ++ coerceContent (some j)
    ∧ (isStrVal j = false → jsTruthy j = true → coerceContent (some j) = stringify j)
    ∧ (isStrVal j = false → jsTruthy j = false → coerceContent (some j) = "")
    ∧ (∀ s, coerceContent (some (.str s)) = s) := by
  refine ⟨rfl, ?_, ?_, fun s => rfl⟩
  · intro hstr htr
    cases j <;> simp_all [coerceContent, isStrVal]
  · intro hstr htr
    cases j <;> simp_all [coerceContent, isStrVal]

/-- Witness for C8 (amended) at a concrete truthy object content. -/
theorem c8_content_coercion_witness :
    isStrVal (JVal.obj [("k", JVal.num 1)]) = false
    ∧ jsTruthy (JVal.obj [("k", JVal.num 1)]) = true
    ∧ coerceContent (some (JVal.obj [("k", JVal.num 1)]))
        = stringify (JVal.obj [("k", JVal.num 1)]) :=
  ⟨rfl, rfl, (c8_content_coercion initialTurn (JVal.obj [("k", JVal.num 1)])).2.1 rfl rfl⟩

/-- C9: while a turn is streaming, `setCurrentThread` never invokes the
reload from the external store, and switching to a thread leaves the
in-memory messages unchanged; a reload is only ever invoked when no turn
is streaming. -/
theorem c9_no_reload_while_streaming (st : AppState) (tid : Option String) :
    (st.isStreaming = true →
      (setCurrentThread st tid).loadInvoked = false
      ∧ (∀ t, tid = some t → (setCurrentThread st tid).state.messages = st.messages))
    ∧ ((setCurrentThread st tid).loadInvoked = true → st.isStreaming = false) := by
  constructor
  · intro hs
    constructor
    · cases tid with
      | none => rfl
      | some t => simp [setCurrentThread, hs]
    · intro t ht
      subst ht
      simp only [setCurrentThread, hs, if_true]
      split <;> rfl
  · intro hl
    cases tid with
    | none => simp [setCurrentThread] at hl
    | some t =>
      by_cases hs : st.isStreaming
      · simp [setCurrentThread, hs] at hl
      · simpa using hs

/-- Witness for C9 at a concrete streaming state. -/
theorem c9_no_reload_while_streaming_witness :
    (AppState.mk none "pv-1" [⟨"hi", []⟩] true [] []).isStreaming = true
    ∧ (setCurrentThread (AppState.mk none "pv-1" [⟨"hi", []⟩] true [] [])
        (some "engineer-5")).loadInvoked = false
    ∧ (setCurrentThread (AppState.mk none "pv-1" [⟨"hi", []⟩] true [] [])
        (some "engineer-5")).state.messages
      = (AppState.mk none "pv-1" [⟨"hi", []⟩] true [] []).messages :=
  ⟨rfl,
   ((c9_no_reload_while_streaming (AppState.mk none "pv-1" [⟨"hi", []⟩] true [] [])
      (some "engineer-5")).1 rfl).1,
   ((c9_no_reload_while_streaming (AppState.mk none "pv-1" [⟨"hi", []⟩] true [] [])
      (some "engineer-5")).1 rfl).2 "engineer-5" rfl⟩

/-- C10: in every tool-result SSE frame the server emits, a string result
appears truncated to its first 500 characters (strings of at most 500
characters pass through whole), while a non-string result is forwarded
unmodified. -/
theorem c10_result_truncation (cid nm : String) (s : String) (j : JVal) :
    jLookup (toolResultFrame cid nm (.str s)) "result" = some (.str (jsSliceStr s 500))
    ∧ (jsSliceStr s 500).length ≤ 500
    ∧ (s.length ≤ 500 → jsSliceStr s 500 = s)
    ∧ (isStrVal j = false → jLookup (toolResultFrame cid nm j) "result" = some j) := by
  refine ⟨rfl, ?_, ?_, ?_⟩
  · show (String.mk (s.data.take 500)).length ≤ 500
    have h : (String.mk (s.data.take 500)).length = (s.data.take 500).length := rfl
    rw [h, List.length_take]
    exact min_le_left _ _
  · intro hlen
    show String.mk (s.data.take 500) = s
    have hd : s.data.length ≤ 500 := hlen
    rw [List.take_of_length_le hd]
  · intro hstr
    have : truncatedResult j = j := by
      cases j <;> simp_all [truncatedResult, isStrVal]
    show jLookup (toolResultFrame cid nm j) "result" = some j
    rw [show jLookup (toolResultFrame cid nm j) "result" = some (truncatedResult j) from rfl, this]

/-- Witness for C10 at a short string result and a numeric result. -/
theorem c10_result_truncation_witness :
    jLookup (toolResultFrame "t1" "read-file" (.str "ok")) "result"
      = some (.str (jsSliceStr "ok" 500))
    ∧ jsSliceStr "ok" 500 = "ok"
    ∧ jLookup (toolResultFrame "t1" "read-file" (.num 7)) "result" = some (.num 7) :=
  ⟨(c10_result_truncation "t1" "read-file" "ok" (JVal.num 7)).1,
   (c10_result_truncation "t1" "read-file" "ok" (JVal.num 7)).2.2.1 (by decide),
   (c10_result_truncation "t1" "read-file" "ok" (JVal.num 7)).2.2.2 rfl⟩
